import Mathlib

/-!
Shallow embedding of the broken-microphone bot (src/main.py).

The repository is a single-file Discord bot running a song-submission game.
We embed the pure state-transforming core: the per-guild state record
(`gstate`, lines 75-92), the link normalizer (`extract_youtube_id`,
lines 95-108), round phase transitions (`close_submissions_core`,
lines 171-269, and `finish_round_core`, lines 272-338, state effects only),
membership (`join`/`leave`, lines 370-397), submission recording
(`submit_song`, lines 626-693) and voting (`vote`, lines 775-862).

Discord I/O (message sending, channel lookup, audio download) is modelled by
an `Env` record saying whether the guild and the configured channel resolve;
messages and downloads have no effect on the persisted state, so they are not
modelled.  Python dicts with insertion order are modelled as association
lists; a missing dict key is modelled as `Option`.
-/

namespace BM

/-! Section: Link normalizer (src/main.py lines 95-108)

`extract_youtube_id` applies four regexes in order via `re.search`:
`youtu\.be/([A-Za-z0-9_\-]{6,})`, `v=([A-Za-z0-9_\-]{6,})`,
`shorts/([A-Za-z0-9_\-]{6,})` and `/([A-Za-z0-9_\-]{6,})$`.
`re.search` returns the leftmost match; the capture group is greedy, so it is
the maximal run of id characters after the literal.  We embed each regex as a
left-to-right scan. -/

/-- The character class `[A-Za-z0-9_\-]` of the four regexes. -/
def isIdChar (c : Char) : Bool := c.isAlphanum || c == '-' || c == '_'

/-- Does the literal `lit` occur at the head of `s`? -/
def litAt : List Char → List Char → Bool
  | [], _ => true
  | _ :: _, [] => false
  | a :: as, b :: bs => a == b && litAt as bs

/-- Embedding of `re.search` for `<lit>([A-Za-z0-9_\-]{6,})`: the leftmost position where
the literal occurs followed by at least 6 id characters; the greedy capture is
the maximal id-character run after the literal. -/
def searchLitId (lit : List Char) : List Char → Option (List Char)
  | [] => none
  | c :: rest =>
    if litAt lit (c :: rest) then
      if 6 ≤ (((c :: rest).drop lit.length).takeWhile isIdChar).length then
        some (((c :: rest).drop lit.length).takeWhile isIdChar)
      else searchLitId lit rest
    else searchLitId lit rest

/-- Embedding of `re.search` for `/([A-Za-z0-9_\-]{6,})$`: the leftmost slash after which
every remaining character is an id character and at least 6 remain. -/
def searchSlashEnd : List Char → Option (List Char)
  | [] => none
  | c :: rest =>
    if c == '/' && rest.all isIdChar && 6 ≤ rest.length then some rest
    else searchSlashEnd rest

/-- src/main.py lines 95-108: try the four shapes in order, returning the
first match, or `""` when none matches. -/
def extract_youtube_id (url : String) : String :=
  match searchLitId "youtu.be/".data url.data with
  | some r => String.mk r
  | none =>
  match searchLitId "v=".data url.data with
  | some r => String.mk r
  | none =>
  match searchLitId "shorts/".data url.data with
  | some r => String.mk r
  | none =>
  match searchSlashEnd url.data with
  | some r => String.mk r
  | none => ""

/-! Section: Data model (src/main.py lines 75-92, 585-590, 664-670, 830-833) -/

/-- One submission record, as appended at src/main.py lines 664-670. -/
structure Submission where
  player_id : Nat
  url : String
  video_id : String
  title : String
  description : String
deriving DecidableEq, Repr

/-- One vote record (src/main.py lines 830-833).  The Python `dist` dict is an
insertion-ordered association list with unique keys. -/
structure Vote where
  voter_id : Nat
  distribution : List (Int × Int)
deriving DecidableEq, Repr

/-- The `status` field of a round: `"collecting"` or `"voting"`. -/
inductive RoundStatus
  | collecting
  | voting
deriving DecidableEq, Repr

/-- A round dict (created at src/main.py lines 585-590).  The
`numbered_submissions` key is absent until submissions close, hence `Option`. -/
structure Round where
  prompt : String
  status : RoundStatus
  submissions : List Submission
  numbered_submissions : Option (List Submission)
  votes : List Vote
deriving DecidableEq, Repr

/-- A fully-populated per-guild state record (src/main.py lines 78-84). -/
structure GroupState where
  players : List Nat
  bot_channel : Option Nat
  current_round : Option Round
  queue : List String
  queue_shuffle : Bool
deriving DecidableEq, Repr

/-- A raw persisted per-guild record, in which any of the five keys may be
missing (older state files); `none` means the key is absent. -/
structure RawGroup where
  players : Option (List Nat)
  bot_channel : Option (Option Nat)
  current_round : Option (Option Round)
  queue : Option (List String)
  queue_shuffle : Option Bool
deriving DecidableEq, Repr

/-- Embedding of `gstate` (src/main.py lines 75-92): a guild id not in the state gets the
full default record; an existing record gets only the newer `queue` and
`queue_shuffle` keys backfilled ("Ensure new keys exist for older state
files"). -/
def gstate : Option RawGroup → RawGroup
  | none => ⟨some [], some none, some none, some [], some false⟩
  | some gs =>
    { gs with
      queue := some (gs.queue.getD []),
      queue_shuffle := some (gs.queue_shuffle.getD false) }

/-- Whether Discord lookups succeed: `bot.get_guild` (guildFound) and
`get_text_channel` (validChannel). -/
structure Env where
  guildFound : Bool
  validChannel : Nat → Bool

/-- Default submission used for modelling Python's indexing
`numbered[sid - 1]` after the bounds have been validated. -/
def noSub : Submission := ⟨0, "", "", "", ""⟩

/-! Section: Membership (src/main.py lines 370-397) -/

/-- Embedding of `join` (lines 370-382): append the caller if not already a player. -/
def join (gs : GroupState) (author : Nat) : GroupState :=
  if gs.players.contains author then gs
  else { gs with players := gs.players ++ [author] }

/-- Embedding of `leave` (lines 385-397): `gs["players"].remove(ctx.author.id)` removes the
first occurrence; nothing else in the record is touched. -/
def leave (gs : GroupState) (author : Nat) : GroupState :=
  if gs.players.contains author then { gs with players := gs.players.erase author }
  else gs

/-! Section: Closing submissions (src/main.py lines 171-269)

State effects of `close_submissions_core`: the guild lookup, the phase checks,
`r["status"] = "voting"` (done, and persisted, before the channel is
resolved), the channel checks, and the construction of
`r["numbered_submissions"]`.  Message sending and audio pre-download touch no
persisted state. -/

/-- Lines 209-218: rebuild each submission dict into the numbered list
(index = entry id - 1); `sub.get("description", "")` is total here because
every stored submission carries a `description` key. -/
def freezeNumbered (subs : List Submission) : List Submission :=
  subs.map (fun s =>
    { player_id := s.player_id, url := s.url, video_id := s.video_id,
      title := s.title, description := s.description })

/-- Lines 171-269, persisted-state effects only. -/
def close_submissions_core (env : Env) (gs : GroupState) : GroupState × Option String :=
  if env.guildFound then
    match gs.current_round with
    | none => (gs, some "No collecting round.")
    | some r =>
      if r.status == RoundStatus.collecting then
        if r.submissions.isEmpty then
          (gs, some "Cannot close submissions: nobody has submitted yet.")
        else
          let r1 := { r with status := RoundStatus.voting }
          let gs1 := { gs with current_round := some r1 }
          match gs.bot_channel with
          | none => (gs1, some "Bot channel not set.")
          | some cid =>
            if env.validChannel cid then
              let r2 := { r1 with numbered_submissions := some (freezeNumbered r1.submissions) }
              ({ gs with current_round := some r2 }, none)
            else
              (gs1, some "The configured bot channel is invalid or not a text channel.")
      else (gs, some "No collecting round.")
  else (gs, some "Internal error: guild not found.")

/-! Section: Scoring and ranking (src/main.py lines 290-304) -/

/-- One step of `scores[idx] += pts` with `idx = sid - 1`, guarded by
`0 <= idx < n` (lines 296-298). -/
def bump (sc : List Int) (sid pts : Int) : List Int :=
  if 0 ≤ sid - 1 ∧ sid - 1 < (sc.length : Int) then
    sc.set (sid - 1).toNat (sc.getD (sid - 1).toNat 0 + pts)
  else sc

/-- The total points a single vote distribution allocates to entry `k`
(0 when the vote allocates nothing to it; the dict has unique keys, so the
sum over matching pairs is that single allocation). -/
def distLookup (d : List (Int × Int)) (k : Int) : Int :=
  ((d.filter (fun p => p.1 == k)).map (fun p => p.2)).sum

/-- Inner loop of lines 294-298 over one vote's distribution. -/
def applyVote (sc : List Int) (d : List (Int × Int)) : List Int :=
  d.foldl (fun s p => bump s p.1 p.2) sc

/-- Lines 292-298: `scores = [0] * n` then accumulate every vote. -/
def computeScores (votes : List Vote) (n : Nat) : List Int :=
  votes.foldl (fun sc v => applyVote sc v.distribution) (List.replicate n 0)

/-- The list comprehension of line 301:
`[(sid, scores[sid - 1]) for sid in range(1, n + 1)]`. -/
def tallyEntries (votes : List Vote) (n : Nat) : List (Nat × Int) :=
  (List.range n).map (fun i => (i + 1, (computeScores votes n).getD i 0))

/-- The comparison realized by `sorted(..., key=lambda x: x[1], reverse=True)`:
`a` may stay before `b` iff `b`'s points do not exceed `a`'s. -/
def voteGe (a b : Nat × Int) : Prop := b.2 ≤ a.2

instance : DecidableRel voteGe := fun a b => inferInstanceAs (Decidable (b.2 ≤ a.2))

/-- Lines 300-304: Python's `sorted` is a stable sort, so it is extensionally
the stable insertion sort with the same comparison. -/
def tallyOrdered (votes : List Vote) (n : Nat) : List (Nat × Int) :=
  List.insertionSort voteGe (tallyEntries votes n)

/-! Section: Finishing a round (src/main.py lines 272-338) -/

/-- Lines 272-338, persisted-state effects only: guild lookup, phase and
no-votes checks, ranking computation (used for the results message), channel
checks, then `gs["current_round"] = None` only after the channel resolved. -/
def finish_round_core (env : Env) (gs : GroupState) : GroupState × Option String :=
  if env.guildFound then
    match gs.current_round with
    | none => (gs, some "No voting round to finish.")
    | some r =>
      if r.status == RoundStatus.voting then
        if r.votes.isEmpty then
          (gs, some "Cannot finish voting: nobody has voted yet.")
        else
          let subs := r.numbered_submissions.getD []
          let _ranking := tallyOrdered r.votes subs.length
          match gs.bot_channel with
          | none => (gs, some "Bot channel not set.")
          | some cid =>
            if env.validChannel cid then
              ({ gs with current_round := none }, none)
            else
              (gs, some "The configured bot channel is invalid or not a text channel.")
      else (gs, some "No voting round to finish.")
  else (gs, some "Internal error: guild not found.")

/-! Section: Submitting a song (src/main.py lines 626-693) -/

/-- Distinct-count of a set comprehension such as
`len({s["player_id"] for s in submissions})`. -/
def distinctCount (l : List Nat) : Nat := l.dedup.length

/-- Line 648: the canonical URL rebuilt from the extracted id. -/
def canonicalUrl (vid : String) : String := "https://www.youtube.com/watch?v=" ++ vid

/-- Lines 653-670: find the caller's existing submission and update its link
fields in place, else append a fresh submission with empty description. -/
def submitUpdate (author : Nat) (url vid title : String) : List Submission → List Submission
  | [] => [{ player_id := author, url := url, video_id := vid, title := title, description := "" }]
  | s :: rest =>
    if s.player_id == author then
      { s with url := url, video_id := vid, title := title } :: rest
    else s :: submitUpdate author url vid title rest

/-- Lines 626-693 for one guild record: membership and phase checks, link
extraction, canonicalization, record/update, then the auto-close of
lines 687-689.  The fetched `title` is an input (the title-fetch collaborator
never raises).  A fall-through (wrong member/phase/link) leaves the state
unchanged. -/
def submit_song (env : Env) (gs : GroupState) (author : Nat) (url title : String) : GroupState :=
  if gs.players.contains author then
    match gs.current_round with
    | none => gs
    | some r =>
      if r.status == RoundStatus.collecting then
        let vid := extract_youtube_id url
        if vid == "" then gs
        else
          let subs := submitUpdate author (canonicalUrl vid) vid title r.submissions
          let gs1 := { gs with current_round := some { r with submissions := subs } }
          let submitted := distinctCount (subs.map (fun s => s.player_id))
          if submitted == gs.players.length && 0 < submitted then
            (close_submissions_core env gs1).1
          else gs1
      else gs
  else gs

/-! Section: Voting (src/main.py lines 775-862) -/

/-- Outcome of the `vote` command for one guild record. -/
inductive VoteResult
  | notFound
  | invalidEntry (sid : Int)
  | negativePoints
  | budgetMismatch
  | selfVote
  | recorded
deriving DecidableEq, Repr

/-- Assignment `dist[sid] = pts` on an insertion-ordered dict: overwrite in place if the
key exists, else append. -/
def dictSet (d : List (Int × Int)) (k v : Int) : List (Int × Int) :=
  if d.any (fun p => p.1 == k) then d.map (fun p => if p.1 == k then (k, v) else p)
  else d ++ [(k, v)]

/-- Lines 792-812: the parsing loop.  Each allocation is already split into an
`(entry id, points)` integer pair (`int()` conversion errors are transport
input errors, modelled upstream of this function).  The loop validates the
entry-id range and non-negativity, writes `dist[sid] = pts`, and adds `pts`
to the running `total` - note the total sums every token, duplicates
included. -/
def parseAllocs (n : Nat) : List (Int × Int) → List (Int × Int) → Int →
    Except VoteResult (List (Int × Int) × Int)
  | [], dist, total => Except.ok (dist, total)
  | (sid, pts) :: rest, dist, total =>
    if sid < 1 || (n : Int) < sid then Except.error (VoteResult.invalidEntry sid)
    else if pts < 0 then Except.error VoteResult.negativePoints
    else parseAllocs n rest (dictSet dist sid pts) (total + pts)

/-- Lines 819-826: does any entry id in the distribution point at the voter's
own submission?  The loop ranges over `dist.keys()` regardless of the points
value. -/
def selfVoteHit (numbered : List Submission) (author : Nat) (dist : List (Int × Int)) : Bool :=
  dist.any (fun p => (numbered.getD (p.1 - 1).toNat noSub).player_id == author)

/-- Lines 829-833: drop any prior vote by this voter, then append the new
one. -/
def recordVote (votes : List Vote) (author : Nat) (dist : List (Int × Int)) : List Vote :=
  votes.filter (fun v => v.voter_id ≠ author) ++ [⟨author, dist⟩]

/-- Lines 786-834 acting on one round: parse, budget check, self-vote check
(enforced only when `debug = false`), record. -/
def voteOnRound (debug : Bool) (author : Nat) (r : Round) (allocs : List (Int × Int)) :
    Round × VoteResult :=
  match parseAllocs (r.numbered_submissions.getD []).length allocs [] 0 with
  | Except.error e => (r, e)
  | Except.ok (dist, total) =>
    if total ≠ 10 then (r, VoteResult.budgetMismatch)
    else if ¬ debug ∧ selfVoteHit (r.numbered_submissions.getD []) author dist then
      (r, VoteResult.selfVote)
    else ({ r with votes := recordVote r.votes author dist }, VoteResult.recorded)

/-- Lines 775-862 for one guild record: the membership/phase guard of
line 785, the round mutation, and the auto-finish of lines 856-858.  A
fall-through reports that no active voting round was found. -/
def vote (env : Env) (debug : Bool) (gs : GroupState) (author : Nat)
    (allocs : List (Int × Int)) : GroupState × VoteResult :=
  match gs.current_round with
  | none => (gs, VoteResult.notFound)
  | some r =>
    if gs.players.contains author && r.status == RoundStatus.voting then
      let step := voteOnRound debug author r allocs
      if step.2 == VoteResult.recorded then
        let gs1 := { gs with current_round := some step.1 }
        let voterCount := distinctCount (step.1.votes.map (fun v => v.voter_id))
        if voterCount == gs.players.length && 0 < voterCount then
          ((finish_round_core env gs1).1, VoteResult.recorded)
        else (gs1, VoteResult.recorded)
      else (gs, step.2)
    else (gs, VoteResult.notFound)

/-! Section: Theorems -/

theorem searchLitId_grammar (lit : List Char) :
    ∀ (s r : List Char), searchLitId lit s = some r →
      6 ≤ r.length ∧ ∀ c ∈ r, isIdChar c = true
  | [], r, h => by simp [searchLitId] at h
  | c :: rest, r, h => by
    rw [searchLitId] at h
    split at h
    · split at h
      next hlen =>
        cases h
        exact ⟨hlen, fun x hx => List.mem_takeWhile_imp hx⟩
      next => exact searchLitId_grammar lit rest r h
    · exact searchLitId_grammar lit rest r h

theorem searchSlashEnd_grammar :
    ∀ (s r : List Char), searchSlashEnd s = some r →
      6 ≤ r.length ∧ ∀ c ∈ r, isIdChar c = true
  | [], r, h => by simp [searchSlashEnd] at h
  | c :: rest, r, h => by
    rw [searchSlashEnd] at h
    split at h
    next hcond =>
      cases h
      simp only [Bool.and_eq_true, decide_eq_true_eq] at hcond
      exact ⟨hcond.2, fun x hx => by
        have := hcond.1.2
        rw [List.all_eq_true] at this
        exact this x hx⟩
    next => exact searchSlashEnd_grammar rest r h

/-- C7: the link normalizer recognizes the four URL shapes (short-link,
query-parameter, "shorts" path, bare trailing path segment) in exactly that
priority order, returns `""` when none matches, and every non-empty result is
a run of at least 6 characters drawn from alphanumerics, `-` and `_`.
(Determinism and totality hold because `extract_youtube_id` is a pure total
function.) -/
theorem extract_youtube_id_spec (url : String) :
    (∀ r, searchLitId "youtu.be/".data url.data = some r →
        extract_youtube_id url = String.mk r) ∧
    (searchLitId "youtu.be/".data url.data = none →
      ∀ r, searchLitId "v=".data url.data = some r →
        extract_youtube_id url = String.mk r) ∧
    (searchLitId "youtu.be/".data url.data = none →
      searchLitId "v=".data url.data = none →
      ∀ r, searchLitId "shorts/".data url.data = some r →
        extract_youtube_id url = String.mk r) ∧
    (searchLitId "youtu.be/".data url.data = none →
      searchLitId "v=".data url.data = none →
      searchLitId "shorts/".data url.data = none →
      ∀ r, searchSlashEnd url.data = some r →
        extract_youtube_id url = String.mk r) ∧
    (searchLitId "youtu.be/".data url.data = none →
      searchLitId "v=".data url.data = none →
      searchLitId "shorts/".data url.data = none →
      searchSlashEnd url.data = none →
      extract_youtube_id url = "") ∧
    (extract_youtube_id url = "" ∨
      (6 ≤ (extract_youtube_id url).length ∧
        ∀ c ∈ (extract_youtube_id url).data, isIdChar c = true)) := by
  refine ⟨?_, ?_, ?_, ?_, ?_, ?_⟩
  · intro r h; unfold extract_youtube_id; rw [h]
  · intro h1 r h; unfold extract_youtube_id; rw [h1, h]
  · intro h1 h2 r h; unfold extract_youtube_id; rw [h1, h2, h]
  · intro h1 h2 h3 r h; unfold extract_youtube_id; rw [h1, h2, h3, h]
  · intro h1 h2 h3 h4; unfold extract_youtube_id; rw [h1, h2, h3, h4]
  · rcases hc1 : searchLitId "youtu.be/".data url.data with _ | r1
    case some =>
      right
      have hg := searchLitId_grammar _ _ _ hc1
      have : extract_youtube_id url = String.mk r1 := by unfold extract_youtube_id; rw [hc1]
      rw [this]; exact hg
    rcases hc2 : searchLitId "v=".data url.data with _ | r2
    case some =>
      right
      have hg := searchLitId_grammar _ _ _ hc2
      have : extract_youtube_id url = String.mk r2 := by
        unfold extract_youtube_id; rw [hc1, hc2]
      rw [this]; exact hg
    rcases hc3 : searchLitId "shorts/".data url.data with _ | r3
    case some =>
      right
      have hg := searchLitId_grammar _ _ _ hc3
      have : extract_youtube_id url = String.mk r3 := by
        unfold extract_youtube_id; rw [hc1, hc2, hc3]
      rw [this]; exact hg
    rcases hc4 : searchSlashEnd url.data with _ | r4
    case some =>
      right
      have hg := searchSlashEnd_grammar _ _ hc4
      have : extract_youtube_id url = String.mk r4 := by
        unfold extract_youtube_id; rw [hc1, hc2, hc3, hc4]
      rw [this]; exact hg
    left
    unfold extract_youtube_id; rw [hc1, hc2, hc3, hc4]

/-- Witness for C7 at a concrete query-parameter URL: the first shape misses,
the second matches and its capture is returned. -/
theorem extract_youtube_id_spec_witness :
    extract_youtube_id "https://www.youtube.com/watch?v=abcdef" = "abcdef" := by
  have h := (extract_youtube_id_spec "https://www.youtube.com/watch?v=abcdef").2.1
  exact h (by decide) "abcdef".data (by decide)

/-- C6 (corrected): on load of an existing group record, `gstate` backfills
only the newer `queue` and `queue_shuffle` keys with their defaults; the
`players`, `bot_channel` and `current_round` keys are returned exactly as
stored (missing stays missing).  A group id absent from the state gets the
full default record. -/
theorem gstate_backfill (raw : RawGroup) :
    (gstate (some raw)).queue = some (raw.queue.getD []) ∧
    (gstate (some raw)).queue_shuffle = some (raw.queue_shuffle.getD false) ∧
    (gstate (some raw)).players = raw.players ∧
    (gstate (some raw)).bot_channel = raw.bot_channel ∧
    (gstate (some raw)).current_round = raw.current_round ∧
    gstate none = ⟨some [], some none, some none, some [], some false⟩ :=
  ⟨rfl, rfl, rfl, rfl, rfl, rfl⟩

/-- C6 counterexample: a record from an older state file that is missing its
`players`, `bot_channel` and `current_round` keys keeps them missing after
`gstate`; only `queue` and `queue_shuffle` are filled, so a later direct
members-list lookup (e.g. `gs["players"]` in `join`) is not protected. -/
theorem gstate_missing_players_counterexample :
    (gstate (some ⟨none, none, none, none, none⟩)).players = none ∧
    (gstate (some ⟨none, none, none, none, none⟩)).bot_channel = none ∧
    (gstate (some ⟨none, none, none, none, none⟩)).current_round = none ∧
    (gstate (some ⟨none, none, none, none, none⟩)).queue = some [] ∧
    (gstate (some ⟨none, none, none, none, none⟩)).queue_shuffle = some false :=
  ⟨rfl, rfl, rfl, rfl, rfl⟩

/-- C10: the operation `leave` removes the departing member from the players list (first
occurrence) and changes nothing else: announce channel, queue, shuffle flag
and the entire current round are untouched, so a departed member's submission
and vote still feed the frozen list and the final tally. -/
theorem leave_frame (gs : GroupState) (author : Nat)
    (hmem : gs.players.contains author = true) :
    (leave gs author).players = gs.players.erase author ∧
    (leave gs author).bot_channel = gs.bot_channel ∧
    (leave gs author).current_round = gs.current_round ∧
    (leave gs author).queue = gs.queue ∧
    (leave gs author).queue_shuffle = gs.queue_shuffle ∧
    ((leave gs author).current_round.map
        (fun r => tallyOrdered r.votes (r.numbered_submissions.getD []).length)) =
      (gs.current_round.map
        (fun r => tallyOrdered r.votes (r.numbered_submissions.getD []).length)) := by
  unfold leave
  rw [if_pos hmem]
  exact ⟨rfl, rfl, rfl, rfl, rfl, rfl⟩

/-- Witness for C10 at a concrete two-member group. -/
theorem leave_frame_witness :
    (leave ⟨[5, 7], some 3, none, ["q"], true⟩ 5).players = [7] ∧
    (leave ⟨[5, 7], some 3, none, ["q"], true⟩ 5).current_round = none := by
  have h := leave_frame ⟨[5, 7], some 3, none, ["q"], true⟩ 5 (by decide)
  refine ⟨?_, ?_⟩
  · rw [h.1]; decide
  · rw [h.2.2.1]

/-- C2 (corrected): for a Collecting round with at least one submission, when
the announce target is unset or does not resolve to a text channel,
`close_submissions_core` reports an error and creates no numbered submission
list — but the group state is NOT left unchanged: the round's phase does not
remain Collecting, because `r["status"] = "voting"` was already executed and
persisted before the announce target was resolved. -/
theorem close_submissions_no_channel (env : Env) (gs : GroupState) (r : Round)
    (hg : env.guildFound = true)
    (hr : gs.current_round = some r)
    (hc : r.status = RoundStatus.collecting)
    (hs : r.submissions ≠ [])
    (hch : gs.bot_channel = none ∨
      ∃ cid, gs.bot_channel = some cid ∧ env.validChannel cid = false) :
    ∃ err, close_submissions_core env gs =
      ({ gs with current_round := some { r with status := RoundStatus.voting } }, some err) := by
  have hie : r.submissions.isEmpty = false := by
    cases hsub : r.submissions with
    | nil => exact absurd hsub hs
    | cons a l => rfl
  obtain ⟨pl, bc, cr, q, qs⟩ := gs
  simp only at hr hch
  subst hr
  rcases hch with hnone | ⟨cid, hcid, hbad⟩
  · subst hnone
    refine ⟨"Bot channel not set.", ?_⟩
    simp [close_submissions_core, hg, hc, hie]
  · subst hcid
    refine ⟨"The configured bot channel is invalid or not a text channel.", ?_⟩
    simp [close_submissions_core, hg, hc, hie, hbad]

/-- Witness for C2's corrected statement at a concrete group. -/
theorem close_submissions_no_channel_witness :
    ∃ err,
      close_submissions_core ⟨true, fun _ => true⟩
          ⟨[7, 8], none, some ⟨"p", RoundStatus.collecting, [⟨7, "u", "v", "t", ""⟩], none, []⟩,
            [], false⟩ =
        (⟨[7, 8], none, some ⟨"p", RoundStatus.voting, [⟨7, "u", "v", "t", ""⟩], none, []⟩,
            [], false⟩, some err) :=
  close_submissions_no_channel ⟨true, fun _ => true⟩
    ⟨[7, 8], none, some ⟨"p", RoundStatus.collecting, [⟨7, "u", "v", "t", ""⟩], none, []⟩,
      [], false⟩
    ⟨"p", RoundStatus.collecting, [⟨7, "u", "v", "t", ""⟩], none, []⟩
    rfl rfl rfl (by decide) (Or.inl rfl)

/-- C2 counterexample: at the same concrete group (Collecting, one submission,
announce target unset) the call reports an error, yet the round's phase is now
Voting — refuting "the round's phase remains Collecting and the group state is
unchanged". -/
theorem close_submissions_counterexample :
    ((close_submissions_core ⟨true, fun _ => true⟩
          ⟨[7, 8], none, some ⟨"p", RoundStatus.collecting, [⟨7, "u", "v", "t", ""⟩], none, []⟩,
            [], false⟩).1.current_round.map Round.status) = some RoundStatus.voting ∧
    ((close_submissions_core ⟨true, fun _ => true⟩
          ⟨[7, 8], none, some ⟨"p", RoundStatus.collecting, [⟨7, "u", "v", "t", ""⟩], none, []⟩,
            [], false⟩).1.current_round.map Round.numbered_submissions) = some none ∧
    (close_submissions_core ⟨true, fun _ => true⟩
          ⟨[7, 8], none, some ⟨"p", RoundStatus.collecting, [⟨7, "u", "v", "t", ""⟩], none, []⟩,
            [], false⟩).2.isSome = true :=
  ⟨rfl, rfl, rfl⟩

/-- C3 (corrected): when the submitter already has a submission in the current
Collecting round, the update path of `submit_song` (src/main.py lines 653-671)
rewrites the url, video id and title of the first submission whose
`player_id` matches and PRESERVES its description — the description is not
reset to empty. -/
theorem submitUpdate_existing (author : Nat) (url vid title : String) :
    ∀ subs : List Submission, (subs.any (fun s => s.player_id == author)) = true →
      ∃ pre s post,
        subs = pre ++ s :: post ∧
        (∀ t ∈ pre, t.player_id ≠ author) ∧
        s.player_id = author ∧
        submitUpdate author url vid title subs =
          pre ++ { s with url := url, video_id := vid, title := title } :: post ∧
        ({ s with url := url, video_id := vid, title := title } : Submission).description
          = s.description
  | [], h => by simp at h
  | s :: rest, h => by
    by_cases hmatch : (s.player_id == author) = true
    · refine ⟨[], s, rest, rfl, by simp, by simpa using hmatch, ?_, rfl⟩
      rw [submitUpdate, if_pos hmatch]
      rfl
    · have hrest : (rest.any (fun s => s.player_id == author)) = true := by
        rcases List.any_eq_true.mp h with ⟨x, hx, hpx⟩
        rcases List.mem_cons.mp hx with h1 | h2
        · subst h1; exact absurd hpx hmatch
        · exact List.any_eq_true.mpr ⟨x, h2, hpx⟩
      obtain ⟨pre, s', post, heq, hpre, hsid, hupd, hdesc⟩ :=
        submitUpdate_existing author url vid title rest hrest
      refine ⟨s :: pre, s', post, by rw [heq]; rfl, ?_, hsid, ?_, hdesc⟩
      · intro t ht
        rcases List.mem_cons.mp ht with h1 | h2
        · subst h1
          intro hcontra
          exact hmatch (by rw [hcontra]; exact beq_self_eq_true author)
        · exact hpre t h2
      · rw [submitUpdate, if_neg hmatch, hupd]
        rfl

/-- Witness for C3's corrected statement. -/
theorem submitUpdate_existing_witness :
    ∃ pre s post,
      ([⟨9, "a", "b", "c", "d"⟩, ⟨7, "old", "ov", "ot", "keep me"⟩] : List Submission)
        = pre ++ s :: post ∧
      (∀ t ∈ pre, t.player_id ≠ 7) ∧
      s.player_id = 7 ∧
      submitUpdate 7 "nu" "nv" "nt"
          [⟨9, "a", "b", "c", "d"⟩, ⟨7, "old", "ov", "ot", "keep me"⟩] =
        pre ++ { s with url := "nu", video_id := "nv", title := "nt" } :: post ∧
      ({ s with url := "nu", video_id := "nv", title := "nt" } : Submission).description
        = s.description :=
  submitUpdate_existing 7 "nu" "nv" "nt"
    [⟨9, "a", "b", "c", "d"⟩, ⟨7, "old", "ov", "ot", "keep me"⟩] (by decide)

/-- C3 counterexample: at the full `submit_song` command, a member with an
existing submission (description "keep me") re-submits a new link; the stored
description is still "keep me", not the empty string the claim requires. -/
theorem submit_song_description_counterexample :
    ((submit_song ⟨true, fun _ => true⟩
          ⟨[7, 8], some 1,
            some ⟨"p", RoundStatus.collecting, [⟨7, "old", "ov", "ot", "keep me"⟩], none, []⟩,
            [], false⟩ 7 "https://youtu.be/zzzzzz" "newtitle").current_round.map
        (fun r => r.submissions.map Submission.description)) = some ["keep me"] := by
  decide

/-! Section: Dict semantics of the vote parse loop -/

/-- The distribution built by the parse loop: the fold of `dist[sid] = pts`
over the tokens, starting from the empty dict. -/
def distOf (allocs : List (Int × Int)) : List (Int × Int) :=
  allocs.foldl (fun d p => dictSet d p.1 p.2) []

/-- Dict lookup on the insertion-ordered association list. -/
def assocLookup (d : List (Int × Int)) (k : Int) : Option Int :=
  (d.find? (fun p => p.1 == k)).map (fun p => p.2)

/-- The points value of the LAST token naming entry `k` (none if no token
names it). -/
def lastValue (allocs : List (Int × Int)) (k : Int) : Option Int :=
  ((allocs.filter (fun p => p.1 == k)).map (fun p => p.2)).getLast?

theorem assocLookup_map_overwrite_self (k v : Int) :
    ∀ d : List (Int × Int), d.any (fun p => p.1 == k) = true →
      assocLookup (d.map (fun p => if p.1 == k then (k, v) else p)) k = some v
  | [], h => by simp at h
  | p :: rest, h => by
    by_cases hp : (p.1 == k) = true
    · unfold assocLookup
      rw [List.map_cons, if_pos hp, List.find?_cons_of_pos _ (by simp)]
      rfl
    · have hrest : rest.any (fun p => p.1 == k) = true := by
        rcases List.any_eq_true.mp h with ⟨x, hx, hpx⟩
        rcases List.mem_cons.mp hx with h1 | h2
        · subst h1; exact absurd hpx hp
        · exact List.any_eq_true.mpr ⟨x, h2, hpx⟩
      unfold assocLookup
      rw [List.map_cons, if_neg hp, List.find?_cons_of_neg _ (by simpa using hp)]
      exact assocLookup_map_overwrite_self k v rest hrest

theorem assocLookup_map_overwrite_ne (k v q : Int) (hqk : q ≠ k) :
    ∀ d : List (Int × Int),
      assocLookup (d.map (fun p => if p.1 == k then (k, v) else p)) q = assocLookup d q
  | [] => rfl
  | p :: rest => by
    have hkq : ¬ (((k, v) : Int × Int).1 == q) = true := by
      simp only [beq_iff_eq]
      exact fun h => hqk h.symm
    by_cases hp : (p.1 == k) = true
    · have hpk : p.1 = k := by simpa using hp
      have hpq : ¬ (p.1 == q) = true := by
        simp only [beq_iff_eq, hpk]
        exact fun h => hqk h.symm
      unfold assocLookup
      rw [List.map_cons, if_pos hp,
        @List.find?_cons_of_neg _ (fun x => x.1 == q) (k, v) _ hkq,
        @List.find?_cons_of_neg _ (fun x => x.1 == q) p _ hpq]
      exact assocLookup_map_overwrite_ne k v q hqk rest
    · unfold assocLookup
      rw [List.map_cons, if_neg hp]
      by_cases hq : (p.1 == q) = true
      · rw [@List.find?_cons_of_pos _ (fun x => x.1 == q) p _ hq,
          @List.find?_cons_of_pos _ (fun x => x.1 == q) p _ hq]
      · rw [@List.find?_cons_of_neg _ (fun x => x.1 == q) p _ hq,
          @List.find?_cons_of_neg _ (fun x => x.1 == q) p _ hq]
        exact assocLookup_map_overwrite_ne k v q hqk rest

theorem assocLookup_append_single (d : List (Int × Int)) (k v q : Int) :
    assocLookup (d ++ [(k, v)]) q =
      (assocLookup d q).or (if q = k then some v else none) := by
  unfold assocLookup
  rw [List.find?_append]
  cases hfd : d.find? (fun p => p.1 == q) with
  | some p => simp
  | none =>
    by_cases hq : q = k
    · subst hq
      rw [if_pos rfl]
      simp [List.find?]
    · rw [if_neg hq]
      have hkq : (((k, v) : Int × Int).1 == q) = false := by
        simp only [beq_eq_false_iff_ne]
        exact fun h => hq h.symm
      simp [List.find?, hkq]

/-- Assignment `dist[k] = v` on the insertion-ordered dict: lookups of `k` now give `v`,
lookups of other keys are unchanged. -/
theorem assocLookup_dictSet (d : List (Int × Int)) (k v q : Int) :
    assocLookup (dictSet d k v) q = if q = k then some v else assocLookup d q := by
  unfold dictSet
  by_cases hany : d.any (fun p => p.1 == k) = true
  · rw [if_pos hany]
    by_cases hq : q = k
    · subst hq; rw [if_pos rfl]; exact assocLookup_map_overwrite_self q v d hany
    · rw [if_neg hq]; exact assocLookup_map_overwrite_ne k v q hq d
  · rw [if_neg hany, assocLookup_append_single]
    by_cases hq : q = k
    · subst hq
      rw [if_pos rfl, if_pos rfl]
      cases hfd : d.find? (fun p => p.1 == q) with
      | some p =>
        exfalso
        apply hany
        have hmem := List.find?_some hfd
        exact List.any_eq_true.mpr ⟨p, List.mem_of_find?_eq_some hfd, hmem⟩
      | none => simp [assocLookup, hfd]
    · rw [if_neg hq, if_neg hq, Option.or_none]

theorem getLast?_cons_or (x : α) (l : List α) :
    (x :: l).getLast? = l.getLast?.or (some x) := by
  cases l with
  | nil => rfl
  | cons b l' =>
    rw [List.getLast?_cons_cons]
    cases hg : (b :: l').getLast? with
    | some y => rfl
    | none => simp at hg

/-- Folding `dist[sid] = pts` over the tokens: looking up `q` in the result
gives the last token value for `q`, else whatever the initial dict said. -/
theorem assocLookup_foldl_dictSet :
    ∀ (allocs d : List (Int × Int)) (q : Int),
      assocLookup (allocs.foldl (fun d p => dictSet d p.1 p.2) d) q =
        (lastValue allocs q).or (assocLookup d q)
  | [], d, q => by simp [lastValue, assocLookup]
  | (k, v) :: rest, d, q => by
    rw [List.foldl_cons, assocLookup_foldl_dictSet rest (dictSet d k v) q,
      assocLookup_dictSet]
    by_cases hq : q = k
    · subst hq
      rw [if_pos rfl]
      unfold lastValue
      rw [List.filter_cons, if_pos (by simp), List.map_cons, getLast?_cons_or]
      cases ((rest.filter (fun p => p.1 == q)).map (fun p => p.2)).getLast? with
      | some y => rfl
      | none => rfl
    · rw [if_neg hq]
      unfold lastValue
      rw [List.filter_cons, if_neg (by simp [Ne.symm hq])]

/-- C1's dedup clause in isolation: duplicate entry ids in one ballot resolve
last-occurrence-wins into a single distribution entry. -/
theorem assocLookup_distOf (allocs : List (Int × Int)) (q : Int) :
    assocLookup (distOf allocs) q = lastValue allocs q := by
  unfold distOf
  rw [assocLookup_foldl_dictSet]
  cases lastValue allocs q with
  | some y => rfl
  | none => rfl

/-- The parse loop succeeds when every token has an in-range entry id and
non-negative points, returning the folded dict and the running total — the
total of ALL tokens, duplicates included. -/
theorem parseAllocs_ok (n : Nat) :
    ∀ (allocs dist : List (Int × Int)) (total : Int),
      (∀ p ∈ allocs, 1 ≤ p.1 ∧ p.1 ≤ (n : Int) ∧ 0 ≤ p.2) →
      parseAllocs n allocs dist total =
        Except.ok (allocs.foldl (fun d p => dictSet d p.1 p.2) dist,
          total + (allocs.map (fun p => p.2)).sum)
  | [], dist, total, _ => by simp [parseAllocs]
  | (sid, pts) :: rest, dist, total, h => by
    have h1 := h (sid, pts) (List.mem_cons_self _ _)
    rw [parseAllocs]
    rw [if_neg (by simp only [Bool.or_eq_true, decide_eq_true_eq]; omega)]
    rw [if_neg (by omega)]
    rw [parseAllocs_ok n rest (dictSet dist sid pts) (total + pts)
      (fun p hp => h p (List.mem_cons_of_mem _ hp))]
    rw [List.foldl_cons, List.map_cons, List.sum_cons]
    congr 2
    ring

/-- Acceptance of a ballot is decided by the running token total, with the
deduplicated dict recorded on success. -/
theorem voteOnRound_eq (debug : Bool) (author : Nat) (r : Round)
    (allocs : List (Int × Int))
    (hval : ∀ p ∈ allocs, 1 ≤ p.1 ∧
      p.1 ≤ ((r.numbered_submissions.getD []).length : Int) ∧ 0 ≤ p.2)
    (hself : debug = true ∨
      selfVoteHit (r.numbered_submissions.getD []) author (distOf allocs) = false) :
    voteOnRound debug author r allocs =
      if (allocs.map (fun p => p.2)).sum = 10 then
        ({ r with votes := recordVote r.votes author (distOf allocs) }, VoteResult.recorded)
      else (r, VoteResult.budgetMismatch) := by
  have hparse := parseAllocs_ok (r.numbered_submissions.getD []).length allocs [] 0 hval
  unfold voteOnRound distOf
  unfold distOf at hself
  rw [hparse]
  dsimp only
  by_cases hsum : (allocs.map (fun p => p.2)).sum = 10
  · rw [if_pos hsum, if_neg (by omega)]
    rcases hself with hdbg | hhit
    · rw [if_neg (fun hc => hc.1 hdbg)]
    · rw [if_neg (fun hc => by rw [hhit] at hc; exact Bool.false_ne_true hc.2)]
  · rw [if_neg hsum, if_pos (by omega)]

/-- C1 (corrected): duplicate entry ids within one ballot do resolve
last-occurrence-wins into a single distribution entry, but the accept/reject
decision of `vote` uses the running total over ALL tokens (duplicates
included), not the sum of the final post-deduplication distribution: with
in-range non-negative tokens and no self-vote hit, the ballot is accepted and
recorded iff the token total equals the budget 10.  In particular the ballot
`1:5 1:5` has token total 10, so it is accepted (recorded as `{1: 5}`), not
rejected as a budget mismatch. -/
theorem vote_budget_token_total (debug : Bool) (author : Nat) (r : Round)
    (allocs : List (Int × Int))
    (hval : ∀ p ∈ allocs, 1 ≤ p.1 ∧
      p.1 ≤ ((r.numbered_submissions.getD []).length : Int) ∧ 0 ≤ p.2)
    (hself : debug = true ∨
      selfVoteHit (r.numbered_submissions.getD []) author (distOf allocs) = false) :
    ((voteOnRound debug author r allocs).2 = VoteResult.recorded ↔
      (allocs.map (fun p => p.2)).sum = 10) ∧
    ((allocs.map (fun p => p.2)).sum = 10 →
      (voteOnRound debug author r allocs).1 =
        { r with votes := recordVote r.votes author (distOf allocs) }) ∧
    ((allocs.map (fun p => p.2)).sum ≠ 10 →
      voteOnRound debug author r allocs = (r, VoteResult.budgetMismatch)) ∧
    (∀ q, assocLookup (distOf allocs) q = lastValue allocs q) := by
  rw [voteOnRound_eq debug author r allocs hval hself]
  by_cases hsum : (allocs.map (fun p => p.2)).sum = 10
  · rw [if_pos hsum]
    exact ⟨by simp [hsum], fun _ => rfl, fun hc => absurd hsum hc,
      fun q => assocLookup_distOf allocs q⟩
  · rw [if_neg hsum]
    refine ⟨?_, fun hc => absurd hc hsum, fun _ => rfl,
      fun q => assocLookup_distOf allocs q⟩
    constructor
    · intro hc
      exact absurd hc (by simp)
    · intro hc
      exact absurd hc hsum

/-- Witness for C1's corrected statement: the ballot `1:4 1:6` on a one-entry
round (someone else's entry) has token total 10 and is accepted; the recorded
distribution is the deduplicated `{1: 6}` (last occurrence wins). -/
theorem vote_budget_token_total_witness :
    ((voteOnRound false 7 ⟨"p", RoundStatus.voting, [], some [⟨99, "u", "v", "t", ""⟩], []⟩
        [(1, 4), (1, 6)]).2 = VoteResult.recorded ↔
      (([(1, 4), (1, 6)] : List (Int × Int)).map (fun p => p.2)).sum = 10) ∧
    assocLookup (distOf [(1, 4), (1, 6)]) 1 = some 6 := by
  have h := vote_budget_token_total false 7
    ⟨"p", RoundStatus.voting, [], some [⟨99, "u", "v", "t", ""⟩], []⟩
    [(1, 4), (1, 6)] (by decide) (Or.inr (by decide))
  exact ⟨h.1, by rw [h.2.2.2 1]; decide⟩

/-- C1 counterexample: the claim's own scenario.  On a Voting round with one
numbered submission (not the voter's), the ballot `1:5 1:5` is NOT rejected as
a budget mismatch: it is accepted and recorded with distribution `{1: 5}`,
because the budget check sums the raw tokens (5 + 5 = 10). -/
theorem vote_duplicate_ballot_counterexample :
    (voteOnRound false 7 ⟨"p", RoundStatus.voting, [], some [⟨99, "u", "v", "t", ""⟩], []⟩
        [(1, 5), (1, 5)]).2 = VoteResult.recorded ∧
    (voteOnRound false 7 ⟨"p", RoundStatus.voting, [], some [⟨99, "u", "v", "t", ""⟩], []⟩
        [(1, 5), (1, 5)]).1.votes = [⟨7, [(1, 5)]⟩] ∧
    ((distOf [(1, 5), (1, 5)]).map (fun p => p.2)).sum = 5 := by
  refine ⟨rfl, rfl, rfl⟩

/-- C9: with the debug override off, a ballot whose (deduplicated)
distribution mentions the voter's own entry id is rejected as a self-vote and
the round is left unchanged — whatever the points value attached to that
entry, 0 included: the check ranges over the entry ids present in the
distribution, not over their point values. -/
theorem vote_self_vote_any_points (author : Nat) (r : Round)
    (allocs : List (Int × Int)) (k v : Int)
    (hval : ∀ p ∈ allocs, 1 ≤ p.1 ∧
      p.1 ≤ ((r.numbered_submissions.getD []).length : Int) ∧ 0 ≤ p.2)
    (hsum : (allocs.map (fun p => p.2)).sum = 10)
    (hmem : (k, v) ∈ distOf allocs)
    (hown : ((r.numbered_submissions.getD []).getD (k - 1).toNat noSub).player_id = author) :
    voteOnRound false author r allocs = (r, VoteResult.selfVote) := by
  have hparse := parseAllocs_ok (r.numbered_submissions.getD []).length allocs [] 0 hval
  have hhit : selfVoteHit (r.numbered_submissions.getD []) author (distOf allocs) = true := by
    unfold selfVoteHit
    exact List.any_eq_true.mpr ⟨(k, v), hmem, by simpa using hown⟩
  unfold voteOnRound
  unfold distOf at hhit
  rw [hparse]
  dsimp only
  rw [if_neg (by omega), if_pos ⟨Bool.false_ne_true, hhit⟩]

/-- Witness for C9 with a zero-point self-allocation: entry 1 is the voter's
own; ballot `1:0 2:10` satisfies the budget yet is rejected, and no vote is
recorded. -/
theorem vote_self_vote_any_points_witness :
    voteOnRound false 7
        ⟨"p", RoundStatus.voting, [],
          some [⟨7, "u", "v", "t", ""⟩, ⟨99, "u2", "v2", "t2", ""⟩], []⟩
        [(1, 0), (2, 10)] =
      (⟨"p", RoundStatus.voting, [],
          some [⟨7, "u", "v", "t", ""⟩, ⟨99, "u2", "v2", "t2", ""⟩], []⟩,
        VoteResult.selfVote) :=
  vote_self_vote_any_points 7
    ⟨"p", RoundStatus.voting, [],
      some [⟨7, "u", "v", "t", ""⟩, ⟨99, "u2", "v2", "t2", ""⟩], []⟩
    [(1, 0), (2, 10)] 1 0 (by decide) (by decide) (by decide) (by decide)

/-! Section: Score accumulation lemmas (lines 292-298) -/

theorem bump_length (sc : List Int) (sid pts : Int) : (bump sc sid pts).length = sc.length := by
  unfold bump
  split
  · rw [List.length_set]
  · rfl

theorem bump_getD (sc : List Int) (sid pts : Int) (i : Nat) (hi : i < sc.length) :
    (bump sc sid pts).getD i 0 =
      sc.getD i 0 + (if sid = (i : Int) + 1 then pts else 0) := by
  unfold bump
  by_cases hcond : 0 ≤ sid - 1 ∧ sid - 1 < (sc.length : Int)
  · rw [if_pos hcond]
    by_cases hs : sid = (i : Int) + 1
    · have hidx : (sid - 1).toNat = i := by omega
      rw [hidx, if_pos hs, List.getD_eq_getElem?_getD,
        List.getElem?_set_eq_of_lt _ hi]
      rfl
    · have hidx : (sid - 1).toNat ≠ i := by omega
      rw [if_neg hs, add_zero, List.getD_eq_getElem?_getD,
        List.getElem?_set_ne hidx, ← List.getD_eq_getElem?_getD]
  · rw [if_neg hcond]
    have hs : sid ≠ (i : Int) + 1 := by omega
    rw [if_neg hs, add_zero]

theorem applyVote_length : ∀ (d : List (Int × Int)) (sc : List Int),
    (applyVote sc d).length = sc.length
  | [], _ => rfl
  | p :: rest, sc => by
    show (applyVote (bump sc p.1 p.2) rest).length = sc.length
    rw [applyVote_length rest (bump sc p.1 p.2), bump_length]

theorem applyVote_getD : ∀ (d : List (Int × Int)) (sc : List Int) (i : Nat),
    i < sc.length →
    (applyVote sc d).getD i 0 = sc.getD i 0 + distLookup d ((i : Int) + 1)
  | [], sc, i, _ => by
    unfold distLookup
    simp [applyVote]
  | (k, v) :: rest, sc, i, hi => by
    show (applyVote (bump sc k v) rest).getD i 0 = _
    rw [applyVote_getD rest (bump sc k v) i (by rw [bump_length]; exact hi),
      bump_getD sc k v i hi]
    unfold distLookup
    rw [List.filter_cons]
    by_cases hk : k = (i : Int) + 1
    · rw [if_pos hk,
        if_pos (show (((k, v) : Int × Int).1 == (i : Int) + 1) = true by simpa using hk),
        List.map_cons, List.sum_cons]
      ring
    · rw [if_neg hk,
        if_neg (show ¬ (((k, v) : Int × Int).1 == (i : Int) + 1) = true by simpa using hk),
        add_zero]

theorem computeScores_length (votes : List Vote) (n : Nat) :
    (computeScores votes n).length = n := by
  unfold computeScores
  suffices h : ∀ (vs : List Vote) (sc : List Int),
      (vs.foldl (fun sc v => applyVote sc v.distribution) sc).length = sc.length by
    rw [h, List.length_replicate]
  intro vs
  induction vs with
  | nil => intro sc; rfl
  | cons v rest ih =>
    intro sc
    rw [List.foldl_cons, ih, applyVote_length]

/-- C4's per-entry sum, read off the accumulated scores array: entry `i + 1`
ends with the sum over all votes of the points that vote allocates to it
(0 when it allocates nothing). -/
theorem computeScores_getD (votes : List Vote) (n : Nat) (i : Nat) (hi : i < n) :
    (computeScores votes n).getD i 0 =
      (votes.map (fun v => distLookup v.distribution ((i : Int) + 1))).sum := by
  unfold computeScores
  suffices h : ∀ (vs : List Vote) (sc : List Int), i < sc.length →
      (vs.foldl (fun sc v => applyVote sc v.distribution) sc).getD i 0 =
        sc.getD i 0 + (vs.map (fun v => distLookup v.distribution ((i : Int) + 1))).sum by
    rw [h votes (List.replicate n 0) (by rw [List.length_replicate]; exact hi),
      List.getD_eq_getElem _ _ (by rw [List.length_replicate]; exact hi),
      List.getElem_replicate, zero_add]
  intro vs
  induction vs with
  | nil => intro sc _; simp
  | cons v rest ih =>
    intro sc hsc
    rw [List.foldl_cons, ih (applyVote sc v.distribution) (by rw [applyVote_length]; exact hsc),
      applyVote_getD v.distribution sc i hsc, List.map_cons, List.sum_cons]
    ring

/-- The scores array depends only on the multiset of votes. -/
theorem computeScores_perm (votes1 votes2 : List Vote) (n : Nat)
    (hp : votes1.Perm votes2) : computeScores votes1 n = computeScores votes2 n := by
  apply List.ext_getElem
  · rw [computeScores_length, computeScores_length]
  · intro i h1 h2
    have hi : i < n := by rwa [computeScores_length] at h1
    rw [← List.getD_eq_getElem _ 0 h1, ← List.getD_eq_getElem _ 0 h2,
      computeScores_getD votes1 n i hi, computeScores_getD votes2 n i hi]
    exact List.Perm.sum_eq (hp.map _)

/-- Scoring, and hence the whole ranking, is independent of the order in
which the votes sit in the list. -/
theorem tallyOrdered_perm_invariant (votes1 votes2 : List Vote) (n : Nat)
    (hp : votes1.Perm votes2) : tallyOrdered votes1 n = tallyOrdered votes2 n := by
  unfold tallyOrdered tallyEntries
  rw [computeScores_perm votes1 votes2 n hp]

/-! Section: Stable-sort lemmas (lines 300-304) -/

/-- The strict ranking order produced by the stable descending sort:
strictly more points, or equal points and smaller entry id. -/
def rankLt (a b : Nat × Int) : Prop := b.2 < a.2 ∨ (a.2 = b.2 ∧ a.1 < b.1)

theorem rankLt_of_le_lt {x z : Nat × Int} (h2 : z.2 ≤ x.2) (h1 : x.1 < z.1) :
    rankLt x z := by
  rcases lt_or_eq_of_le h2 with h | h
  · exact Or.inl h
  · exact Or.inr ⟨h.symm, h1⟩

theorem rankLt_points_le {y z : Nat × Int} (h : rankLt y z) : z.2 ≤ y.2 := by
  rcases h with h | ⟨h, _⟩
  · exact le_of_lt h
  · exact le_of_eq h.symm

theorem orderedInsert_rankLt (x : Nat × Int) :
    ∀ l : List (Nat × Int), l.Pairwise rankLt → (∀ y ∈ l, x.1 < y.1) →
      (List.orderedInsert voteGe x l).Pairwise rankLt
  | [], _, _ => by simp
  | y :: ys, hp, hx => by
    rw [List.orderedInsert]
    split
    next hle =>
      have hle2 : y.2 ≤ x.2 := hle
      constructor
      · intro z hz
        rcases List.mem_cons.mp hz with rfl | hzys
        · exact rankLt_of_le_lt hle2 (hx z (List.mem_cons_self _ _))
        · have hyz := List.rel_of_pairwise_cons hp hzys
          exact rankLt_of_le_lt (le_trans (rankLt_points_le hyz) hle2)
            (hx z (List.mem_cons_of_mem _ hzys))
      · exact hp
    next hle =>
      have hxy : x.2 < y.2 := lt_of_not_le hle
      constructor
      · intro z hz
        rcases (List.mem_orderedInsert voteGe).mp hz with rfl | hzys
        · exact Or.inl hxy
        · exact List.rel_of_pairwise_cons hp hzys
      · exact orderedInsert_rankLt x ys hp.of_cons
          (fun y' hy' => hx y' (List.mem_cons_of_mem _ hy'))

theorem insertionSort_rankLt :
    ∀ l : List (Nat × Int), l.Pairwise (fun a b => a.1 < b.1) →
      (List.insertionSort voteGe l).Pairwise rankLt
  | [], _ => List.Pairwise.nil
  | x :: l, hp => by
    rw [List.insertionSort]
    apply orderedInsert_rankLt
    · exact insertionSort_rankLt l hp.of_cons
    · intro y hy
      exact List.rel_of_pairwise_cons hp ((List.perm_insertionSort voteGe l).mem_iff.mp hy)

theorem tallyEntries_pairwise (votes : List Vote) (n : Nat) :
    (tallyEntries votes n).Pairwise (fun a b => a.1 < b.1) := by
  unfold tallyEntries
  exact List.Pairwise.map _ (fun a b h => by omega) (List.pairwise_lt_range n)

/-- C4: for a Voting round with `n` numbered submissions, the tally computes
for each entry id `i + 1` the sum over all votes of the points allocated to it
(0 when a vote allocates nothing), and ranks the entries in descending order
of total points, ties between equal totals broken by ascending entry id
(`rankLt`-pairwise output that is a permutation of the entry list); re-running
the tally on the same votes yields the identical ranking. -/
theorem tally_ranking_spec (votes : List Vote) (n : Nat) (_hvotes : votes ≠ []) :
    (∀ i, i < n → (computeScores votes n).getD i 0 =
      (votes.map (fun v => distLookup v.distribution ((i : Int) + 1))).sum) ∧
    (tallyOrdered votes n).Perm (tallyEntries votes n) ∧
    (tallyOrdered votes n).Pairwise rankLt ∧
    tallyOrdered votes n = tallyOrdered votes n := by
  refine ⟨fun i hi => computeScores_getD votes n i hi, ?_, ?_, rfl⟩
  · exact List.perm_insertionSort voteGe (tallyEntries votes n)
  · exact insertionSort_rankLt (tallyEntries votes n) (tallyEntries_pairwise votes n)

/-- Witness for C4 at the spec's own three-member scenario: totals are
entry 1 = 10, entry 2 = 11, entry 3 = 9, and the ranking comes out
[2, 1, 3]. -/
theorem tally_ranking_spec_witness :
    (tallyOrdered [⟨1, [(2, 6), (3, 4)]⟩, ⟨2, [(1, 5), (3, 5)]⟩, ⟨3, [(1, 5), (2, 5)]⟩]
        3).Pairwise rankLt ∧
    tallyOrdered [⟨1, [(2, 6), (3, 4)]⟩, ⟨2, [(1, 5), (3, 5)]⟩, ⟨3, [(1, 5), (2, 5)]⟩] 3 =
      [(2, 11), (1, 10), (3, 9)] := by
  refine ⟨(tally_ranking_spec
    [⟨1, [(2, 6), (3, 4)]⟩, ⟨2, [(1, 5), (3, 5)]⟩, ⟨3, [(1, 5), (2, 5)]⟩] 3
    (by simp)).2.2.1, by decide⟩

/-- C8: after a vote is recorded the round's vote list contains exactly one
vote by that voter (the new one, appended at the end after every prior vote by
the same voter is removed), every other voter's votes are untouched, per-voter
uniqueness of the list is preserved, and the tally result does not depend on
the order of the votes in the list. -/
theorem recordVote_unique (votes : List Vote) (author : Nat)
    (dist : List (Int × Int)) (n : Nat) :
    recordVote votes author dist =
      votes.filter (fun v => v.voter_id ≠ author) ++ [⟨author, dist⟩] ∧
    (recordVote votes author dist).filter (fun v => v.voter_id == author)
      = [⟨author, dist⟩] ∧
    (∀ w, w ≠ author →
      (recordVote votes author dist).filter (fun v => v.voter_id == w) =
        votes.filter (fun v => v.voter_id == w)) ∧
    ((votes.map (fun v => v.voter_id)).Nodup →
      ((recordVote votes author dist).map (fun v => v.voter_id)).Nodup) ∧
    (∀ votes', votes.Perm votes' → tallyOrdered votes n = tallyOrdered votes' n) := by
  have hdropped : ∀ w : Nat,
      (votes.filter (fun v => v.voter_id ≠ author)).filter (fun v => v.voter_id == w) =
        ((votes.filter (fun v => v.voter_id == w)).filter (fun v => v.voter_id ≠ author)) := by
    intro w
    rw [List.filter_filter, List.filter_filter]
    apply List.filter_congr
    intro v _
    rw [Bool.and_comm]
  refine ⟨rfl, ?_, ?_, ?_, fun votes' hp => tallyOrdered_perm_invariant votes votes' n hp⟩
  · unfold recordVote
    rw [List.filter_append]
    have h1 : (votes.filter (fun v => v.voter_id ≠ author)).filter
        (fun v => v.voter_id == author) = [] := by
      rw [List.filter_eq_nil_iff]
      intro v hv
      have := (List.mem_filter.mp hv).2
      simp only [decide_eq_true_eq] at this
      simp [this]
    rw [h1]
    simp [List.filter]
  · intro w hw
    unfold recordVote
    rw [List.filter_append, hdropped w]
    have haw : (author == w) = false := by
      simp only [beq_eq_false_iff_ne]
      exact Ne.symm hw
    have h2 : (([⟨author, dist⟩] : List Vote).filter (fun v => v.voter_id == w)) = [] := by
      simp [List.filter, haw]
    rw [h2, List.append_nil, List.filter_eq_self]
    intro v hv
    have hvw : v.voter_id = w := by simpa using (List.mem_filter.mp hv).2
    simp [hvw, hw]
  · intro hnd
    unfold recordVote
    rw [List.map_append]
    apply List.Nodup.append
    · exact hnd.sublist (List.Sublist.map _ (List.filter_sublist votes))
    · simp
    · intro a ha hb
      simp only [List.map_cons, List.map_nil, List.mem_singleton] at hb
      subst hb
      rcases List.mem_map.mp ha with ⟨v, hv, hvid⟩
      have := (List.mem_filter.mp hv).2
      simp only [decide_eq_true_eq] at this
      exact this hvid

/-- Witness for C8: voter 7 re-votes; the prior vote is gone, the new one is
appended after voter 8's, and swapping the list order leaves the tally
unchanged. -/
theorem recordVote_unique_witness :
    (recordVote [⟨7, [(1, 10)]⟩, ⟨8, [(2, 10)]⟩] 7 [(2, 10)]).filter
        (fun v => v.voter_id == 7) = [⟨7, [(2, 10)]⟩] ∧
    recordVote [⟨7, [(1, 10)]⟩, ⟨8, [(2, 10)]⟩] 7 [(2, 10)] =
      [⟨8, [(2, 10)]⟩, ⟨7, [(2, 10)]⟩] ∧
    tallyOrdered [⟨7, [(1, 10)]⟩, ⟨8, [(2, 10)]⟩] 2 =
      tallyOrdered [⟨8, [(2, 10)]⟩, ⟨7, [(1, 10)]⟩] 2 := by
  have h := recordVote_unique [⟨7, [(1, 10)]⟩, ⟨8, [(2, 10)]⟩] 7 [(2, 10)] 2
  refine ⟨h.2.1, by decide, h.2.2.2.2 [⟨8, [(2, 10)]⟩, ⟨7, [(1, 10)]⟩] (List.Perm.swap _ _ _)⟩

/-! Section: C5: auto-advance -/

/-- C5: (i) after every successful submission while Collecting, if the number
of distinct submitters equals the group's member count and that count is
positive, the controller performs `close_submissions_core` on the
just-recorded state; (ii) symmetrically, after every successfully recorded
vote while Voting, if the distinct voter count equals the member count and is
positive, it performs `finish_round_core`; (iii) once the phase is no longer
Collecting a submission changes nothing, and once it is no longer Voting a
vote changes nothing — so after the phase has changed, a further submission
or vote can never re-trigger the transition; (iv) a successful close leaves
the phase at Voting and (v) a successful finish clears the round, feeding
(iii). -/
theorem auto_advance_spec :
    (∀ (env : Env) (gs : GroupState) (author : Nat) (url title : String) (r : Round),
      gs.current_round = some r →
      r.status = RoundStatus.collecting →
      gs.players.contains author = true →
      extract_youtube_id url ≠ "" →
      distinctCount ((submitUpdate author (canonicalUrl (extract_youtube_id url))
          (extract_youtube_id url) title r.submissions).map (fun s => s.player_id)) =
        gs.players.length →
      0 < gs.players.length →
      submit_song env gs author url title =
        (close_submissions_core env
          { gs with current_round := some { r with
              submissions := submitUpdate author (canonicalUrl (extract_youtube_id url))
                (extract_youtube_id url) title r.submissions } }).1) ∧
    (∀ (env : Env) (debug : Bool) (gs : GroupState) (author : Nat)
        (allocs : List (Int × Int)) (r : Round),
      gs.current_round = some r →
      gs.players.contains author = true →
      r.status = RoundStatus.voting →
      (voteOnRound debug author r allocs).2 = VoteResult.recorded →
      distinctCount ((voteOnRound debug author r allocs).1.votes.map
          (fun v => v.voter_id)) = gs.players.length →
      0 < gs.players.length →
      vote env debug gs author allocs =
        ((finish_round_core env
          { gs with current_round := some (voteOnRound debug author r allocs).1 }).1,
          VoteResult.recorded)) ∧
    (∀ (env : Env) (gs : GroupState) (author : Nat) (url title : String),
      gs.current_round.map Round.status ≠ some RoundStatus.collecting →
      submit_song env gs author url title = gs) ∧
    (∀ (env : Env) (debug : Bool) (gs : GroupState) (author : Nat)
        (allocs : List (Int × Int)),
      gs.current_round.map Round.status ≠ some RoundStatus.voting →
      vote env debug gs author allocs = (gs, VoteResult.notFound)) ∧
    (∀ (env : Env) (gs : GroupState) (r : Round),
      env.guildFound = true →
      gs.current_round = some r →
      r.status = RoundStatus.collecting →
      r.submissions ≠ [] →
      ((close_submissions_core env gs).1.current_round.map Round.status)
        = some RoundStatus.voting) ∧
    (∀ (env : Env) (gs : GroupState) (r : Round) (cid : Nat),
      env.guildFound = true →
      gs.current_round = some r →
      r.status = RoundStatus.voting →
      r.votes ≠ [] →
      gs.bot_channel = some cid →
      env.validChannel cid = true →
      (finish_round_core env gs).1.current_round = none) := by
  refine ⟨?_, ?_, ?_, ?_, ?_, ?_⟩
  · intro env gs author url title r hr hst hmem hvid hcount hpos
    have hvidb : (extract_youtube_id url == "") = false := by
      simpa [beq_eq_false_iff_ne] using hvid
    have hstb : (r.status == RoundStatus.collecting) = true := by rw [hst]; rfl
    have hcond : ((distinctCount ((submitUpdate author (canonicalUrl (extract_youtube_id url))
        (extract_youtube_id url) title r.submissions).map (fun s => s.player_id))
          == gs.players.length) &&
        decide (0 < distinctCount ((submitUpdate author (canonicalUrl (extract_youtube_id url))
          (extract_youtube_id url) title r.submissions).map (fun s => s.player_id)))) = true := by
      rw [hcount]
      simp only [beq_self_eq_true, Bool.true_and, decide_eq_true_eq]
      omega
    simp only [submit_song, hmem, if_true, hr, hstb, hvidb, Bool.false_eq_true, if_false,
      hcond, if_true]
  · intro env debug gs author allocs r hr hmem hst hrec hcount hpos
    have hstb : (r.status == RoundStatus.voting) = true := by rw [hst]; rfl
    have hrecb : ((voteOnRound debug author r allocs).2 == VoteResult.recorded) = true := by
      rw [hrec]; rfl
    have hcond : ((distinctCount ((voteOnRound debug author r allocs).1.votes.map
          (fun v => v.voter_id)) == gs.players.length) &&
        decide (0 < distinctCount ((voteOnRound debug author r allocs).1.votes.map
          (fun v => v.voter_id)))) = true := by
      rw [hcount]
      simp only [beq_self_eq_true, Bool.true_and, decide_eq_true_eq]
      omega
    simp only [vote, hr, hmem, hstb, Bool.and_self, if_true, hrecb, hcond]
  · intro env gs author url title hst
    unfold submit_song
    by_cases hmem : gs.players.contains author = true
    · rw [if_pos hmem]
      cases hr : gs.current_round with
      | none => rfl
      | some r =>
        rw [hr] at hst
        have hneq : r.status ≠ RoundStatus.collecting := fun h => hst (by simp [h])
        have hb : (r.status == RoundStatus.collecting) = false := by
          cases hc : r.status
          · exact absurd hc hneq
          · rfl
        dsimp only
        rw [hb]
        simp
    · rw [if_neg hmem]
  · intro env debug gs author allocs hst
    unfold vote
    cases hr : gs.current_round with
    | none => rfl
    | some r =>
      rw [hr] at hst
      have hneq : r.status ≠ RoundStatus.voting := fun h => hst (by simp [h])
      have hb : (r.status == RoundStatus.voting) = false := by
        cases hc : r.status
        · rfl
        · exact absurd hc hneq
      dsimp only
      rw [hb, Bool.and_false]
      simp
  · intro env gs r hg hr hst hsub
    have hie : r.submissions.isEmpty = false := by
      cases hs : r.submissions with
      | nil => exact absurd hs hsub
      | cons a l => rfl
    have hstb : (r.status == RoundStatus.collecting) = true := by rw [hst]; rfl
    unfold close_submissions_core
    rw [hg, if_pos rfl, hr]
    dsimp only
    rw [hstb, if_pos rfl, hie]
    cases hbc : gs.bot_channel with
    | none => rfl
    | some cid =>
      by_cases hvc : env.validChannel cid = true
      · simp [hvc]
      · simp [hvc]
  · intro env gs r cid hg hr hst hv hbc hvc
    have hve : r.votes.isEmpty = false := by
      cases hs : r.votes with
      | nil => exact absurd hs hv
      | cons a l => rfl
    have hstb : (r.status == RoundStatus.voting) = true := by rw [hst]; rfl
    unfold finish_round_core
    rw [hg, if_pos rfl, hr]
    dsimp only
    rw [hstb, if_pos rfl, hve, hbc]
    dsimp only
    simp [hvc]

/-- Witness for C5 in a single-member group: the lone member's submission
reaches the threshold and hands the state to `close_submissions_core`; a
closed round is in Voting; submitting against a Voting round is a no-op; the
lone vote reaches the threshold and hands the state to `finish_round_core`; a
successful finish clears the round; voting with no round is a no-op. -/
theorem auto_advance_spec_witness :
    (submit_song ⟨true, fun _ => true⟩
        ⟨[7], some 1, some ⟨"p", RoundStatus.collecting, [], none, []⟩, [], false⟩
        7 "https://youtu.be/abcdef" "t" =
      (close_submissions_core ⟨true, fun _ => true⟩
        ⟨[7], some 1,
          some ⟨"p", RoundStatus.collecting,
            submitUpdate 7 (canonicalUrl (extract_youtube_id "https://youtu.be/abcdef"))
              (extract_youtube_id "https://youtu.be/abcdef") "t" [], none, []⟩,
          [], false⟩).1) ∧
    (((close_submissions_core ⟨true, fun _ => true⟩
        ⟨[7], some 1,
          some ⟨"p", RoundStatus.collecting, [⟨7, "cu", "abcdef", "t", ""⟩], none, []⟩,
          [], false⟩).1.current_round.map Round.status) = some RoundStatus.voting) ∧
    (submit_song ⟨true, fun _ => true⟩
        ⟨[7], some 1,
          some ⟨"p", RoundStatus.voting, [⟨7, "cu", "abcdef", "t", ""⟩], none, []⟩,
          [], false⟩ 7 "https://youtu.be/abcdef" "t" =
      ⟨[7], some 1,
        some ⟨"p", RoundStatus.voting, [⟨7, "cu", "abcdef", "t", ""⟩], none, []⟩,
        [], false⟩) ∧
    (vote ⟨true, fun _ => true⟩ false
        ⟨[7], some 1,
          some ⟨"p", RoundStatus.voting, [], some [⟨99, "u", "v", "t", ""⟩], []⟩,
          [], false⟩ 7 [(1, 10)] =
      ((finish_round_core ⟨true, fun _ => true⟩
        ⟨[7], some 1,
          some (voteOnRound false 7
            ⟨"p", RoundStatus.voting, [], some [⟨99, "u", "v", "t", ""⟩], []⟩ [(1, 10)]).1,
          [], false⟩).1, VoteResult.recorded)) ∧
    ((finish_round_core ⟨true, fun _ => true⟩
        ⟨[7], some 1,
          some ⟨"p", RoundStatus.voting, [], some [⟨99, "u", "v", "t", ""⟩],
            [⟨7, [(1, 10)]⟩]⟩,
          [], false⟩).1.current_round = none) ∧
    (vote ⟨true, fun _ => true⟩ false ⟨[7], some 1, none, [], false⟩ 7 [(1, 10)] =
      (⟨[7], some 1, none, [], false⟩, VoteResult.notFound)) := by
  refine ⟨?_, ?_, ?_, ?_, ?_, ?_⟩
  · exact auto_advance_spec.1 ⟨true, fun _ => true⟩
      ⟨[7], some 1, some ⟨"p", RoundStatus.collecting, [], none, []⟩, [], false⟩
      7 "https://youtu.be/abcdef" "t" ⟨"p", RoundStatus.collecting, [], none, []⟩
      rfl rfl (by decide) (by decide) (by decide) (by decide)
  · exact auto_advance_spec.2.2.2.2.1 ⟨true, fun _ => true⟩
      ⟨[7], some 1,
        some ⟨"p", RoundStatus.collecting, [⟨7, "cu", "abcdef", "t", ""⟩], none, []⟩,
        [], false⟩
      ⟨"p", RoundStatus.collecting, [⟨7, "cu", "abcdef", "t", ""⟩], none, []⟩
      rfl rfl rfl (by decide)
  · exact auto_advance_spec.2.2.1 ⟨true, fun _ => true⟩
      ⟨[7], some 1,
        some ⟨"p", RoundStatus.voting, [⟨7, "cu", "abcdef", "t", ""⟩], none, []⟩,
        [], false⟩ 7 "https://youtu.be/abcdef" "t" (by decide)
  · exact auto_advance_spec.2.1 ⟨true, fun _ => true⟩ false
      ⟨[7], some 1,
        some ⟨"p", RoundStatus.voting, [], some [⟨99, "u", "v", "t", ""⟩], []⟩,
        [], false⟩ 7 [(1, 10)]
      ⟨"p", RoundStatus.voting, [], some [⟨99, "u", "v", "t", ""⟩], []⟩
      rfl (by decide) rfl (by decide) (by decide) (by decide)
  · exact auto_advance_spec.2.2.2.2.2 ⟨true, fun _ => true⟩
      ⟨[7], some 1,
        some ⟨"p", RoundStatus.voting, [], some [⟨99, "u", "v", "t", ""⟩],
          [⟨7, [(1, 10)]⟩]⟩,
        [], false⟩
      ⟨"p", RoundStatus.voting, [], some [⟨99, "u", "v", "t", ""⟩], [⟨7, [(1, 10)]⟩]⟩
      1 rfl rfl rfl (by decide) rfl rfl
  · exact auto_advance_spec.2.2.2.1 ⟨true, fun _ => true⟩ false
      ⟨[7], some 1, none, [], false⟩ 7 [(1, 10)] (by decide)

end BM

